import Mathlib

/-
Verification of the message-relay bridge (src/index.ts): per-conversation
debounce scheduler, bounded-retry generation, reply splitting, and audio
transcription. Each definition is a shallow embedding of the corresponding
TypeScript in src/index.ts.
-/

namespace Bridge

/- ### Reply splitter (splitMessages, src/index.ts lines 183-187)

JavaScript semantics embedded over lists of characters:
String.prototype.trim strips whitespace from both ends, and
String.prototype.split with the regex matching a newline followed by a
greedy run of whitespace cuts the string at each such maximal run.
JS whitespace is modelled by Char.isWhitespace, which covers the
whitespace characters that occur in this program's strings. -/

/-- Drop the leading whitespace run of a character list. -/
def dropWs : List Char → List Char
  | [] => []
  | c :: cs => if c.isWhitespace then dropWs cs else c :: cs

/-- JS String.prototype.trim: drop trailing then leading whitespace. -/
def trimList (l : List Char) : List Char :=
  dropWs ((dropWs l.reverse).reverse)

/-- JS String.prototype.split on the regex of a newline followed by a greedy
whitespace run, as a two-mode scanner: in skipping mode the scanner is inside
the whitespace run of a separator; otherwise it accumulates the current
segment (reversed) and emits it at each newline. -/
def splitCore : Bool → List Char → List Char → List (List Char)
  | _, [], acc => [acc.reverse]
  | true, c :: cs, acc =>
    if c.isWhitespace then splitCore true cs acc
    else splitCore false cs (c :: acc)
  | false, c :: cs, acc =>
    if c = '\n' then acc.reverse :: splitCore true cs []
    else splitCore false cs (c :: acc)

/-- splitMessages (src/index.ts lines 183-187): trim the input, split on each
newline-plus-optional-whitespace boundary, and keep only the segments that are
not whitespace-only. -/
def splitMessages (s : String) : List String :=
  ((splitCore false (trimList s.data) []).filter
      (fun seg => !(trimList seg).isEmpty)).map (fun seg => String.mk seg)

/- ### Retry controller (the for-loop in src/index.ts lines 115-135) -/

/-- A generation failure thrown by a backend, abstracted by a numeric code. -/
structure GenError where
  code : Nat
deriving DecidableEq

/-- MAX_RETRIES (src/index.ts line 17). -/
def MAX_RETRIES : Nat := 3

/-- The fixed fallback answer of src/index.ts line 126. -/
def FALLBACK_ANSWER : String := "Desculpe, não entendi. Pode repetir?"

/-- The coercion at src/index.ts lines 125-127: an answer that trims to the
empty string is replaced by the fixed fallback answer. -/
def coerceEmpty (s : String) : String :=
  if (trimList s.data).isEmpty then FALLBACK_ANSWER else s

/-- The retry for-loop of src/index.ts lines 117-135, with the generator
abstracted as a map from the attempt number to that call's outcome.
Arguments: the current attempt number and the number of loop iterations that
remain (so the iteration with one remaining is the one where the attempt
number equals MAX_RETRIES). Returns the number of generator calls performed,
the attempt numbers logged as failed-and-retried, and the final outcome: the
(coerced) answer on a break, or the error rethrown on the final attempt. -/
def retryGo (gen : Nat → Except GenError String) : Nat → Nat → Nat × List Nat × Except GenError String
  | _, 0 => (0, [], Except.ok "")
  | attempt, remaining + 1 =>
    match gen attempt with
    | Except.ok v => (1, [], Except.ok (coerceEmpty v))
    | Except.error e =>
      if remaining = 0 then (1, [], Except.error e)
      else
        let r := retryGo gen (attempt + 1) remaining
        (r.1 + 1, attempt :: r.2.1, r.2.2)

/-- The whole retry loop: attempts numbered from 1 up to MAX_RETRIES. -/
def invokeWithRetry (gen : Nat → Except GenError String) : Nat × List Nat × Except GenError String :=
  retryGo gen 1 MAX_RETRIES

/- ### Transcriber (transcribeAudio, src/index.ts lines 159-181)

The external effects are abstracted by a scenario giving the outcome of the
media download, the temp-file write, and the speech-to-text submission.
The Boolean tracked alongside the result is whether the transient audio file
exists when control leaves the function. -/

/-- Outcome of message.downloadMediaAsBuffer (src/index.ts line 161). -/
inductive DownloadResult where
  | ok (data : Nat)
  | null
  | throws
deriving DecidableEq

/-- Outcome of fs.writeFileSync (src/index.ts line 168). -/
inductive WriteResult where
  | ok
  | throws
deriving DecidableEq

/-- Outcome of clientAssemblyAI.transcripts.create (src/index.ts line 170). -/
inductive ServiceResult where
  | ok (text : String)
  | throws
deriving DecidableEq

/-- One run's external-effect outcomes for transcribeAudio. -/
structure TranscribeScenario where
  download : DownloadResult
  write : WriteResult
  service : ServiceResult
deriving DecidableEq

/-- The apology returned when the downloaded media is null
(src/index.ts line 164) and by the outer handler's catch (line 93). -/
def apologyNoData : String := "Desculpe, não foi possível processar o áudio."

/-- The apology returned by transcribeAudio's catch (src/index.ts line 179). -/
def apologyTranscribe : String := "Não consigo te enviar audio"

/-- The try-block body of transcribeAudio (src/index.ts lines 160-176).
Returns the produced text together with whether the temp file exists on that
path, or an error carrying whether the temp file exists at the throw point.
The unlink at line 174 runs only on this straight-line success path. -/
def transcribeTry (sc : TranscribeScenario) : Except Bool (String × Bool) :=
  match sc.download with
  | DownloadResult.throws => Except.error false
  | DownloadResult.null => Except.ok (apologyNoData, false)
  | DownloadResult.ok _ =>
    match sc.write with
    | WriteResult.throws => Except.error false
    | WriteResult.ok =>
      match sc.service with
      | ServiceResult.throws => Except.error true
      | ServiceResult.ok t => Except.ok (t, false)

/-- transcribeAudio (src/index.ts lines 159-181): the try body with its catch,
which turns any thrown error into the fixed apology and leaves the temp file
in whatever state it had at the throw point. -/
def transcribeAudio (sc : TranscribeScenario) : String × Bool :=
  match transcribeTry sc with
  | Except.ok r => r
  | Except.error fileState => (apologyTranscribe, fileState)

/-- Message types handled by the onAnyMessage branch (src/index.ts lines 83-90). -/
inductive MsgType where
  | ptt
  | audio
  | chat
  | other
deriving DecidableEq

/-- The content computation of src/index.ts lines 79-94: voice messages are
transcribed, text messages use their body, anything else is ignored (the
handler returns before buffering). -/
def contentOf (type : MsgType) (body : String) (sc : TranscribeScenario) : Option String :=
  match type with
  | MsgType.ptt => some (transcribeAudio sc).1
  | MsgType.audio => some (transcribeAudio sc).1
  | MsgType.chat => some body
  | MsgType.other => none

/- ### Debounce scheduler (the onAnyMessage handler, src/index.ts lines 60-157)

The two module-level Maps and the Node timer machinery are embedded as an
explicit state, and the handler's behaviour as a step function over events:
the arrival of a supported message with its computed content (lines 102-151,
the synchronous buffering and timer re-arm), the expiry of a live timer
(the synchronous start of the setTimeout callback, up to and including the
buffer read of line 112 and the first generation call), and the completion
of an in-flight settle pipeline (delivery on success, nothing on error, then
the finally block of lines 146-149). Debounce timing is encoded by event
order: arrivals within the 7000 ms window are exactly those not separated by
the expiry of that conversation's timer. Node timers are given fresh ids;
clearTimeout marks a timer dead, while deleting a Map entry does not. -/

/-- A settle pipeline in flight: the conversation it serves and the buffer
content it read when its timer expired (none when the buffer entry was
absent, the Map.get-returns-undefined case). -/
structure PipeInfo where
  chat : Nat
  content : Option String
deriving DecidableEq

/-- The scheduler state: the two Maps of src/index.ts lines 14-15, the set of
scheduled-and-not-yet-fired-or-cancelled timers with their conversations, the
in-flight pipelines, and the observation log of generation calls (pipeline id,
conversation, content handed to the generator) and deliveries. -/
structure SchedState where
  messageBufferPerChatId : Nat → Option String
  messageTimeouts : Nat → Option Nat
  timerAlive : Nat → Bool
  timerChat : Nat → Nat
  nextTimer : Nat
  pipes : Nat → Option PipeInfo
  nextPipe : Nat
  genCalls : List (Nat × Nat × Option String)
  delivered : List (Nat × List String)

/-- The state at process start: empty Maps, no timers, no pipelines. -/
def initState : SchedState :=
  ⟨fun _ => none, fun _ => none, fun _ => false, fun _ => 0, 0,
   fun _ => none, 0, [], []⟩

/-- Scheduler events (see the section comment). -/
inductive Event where
  | arrive (chat : Nat) (content : String)
  | fire (timer : Nat)
  | complete (pipe : Nat) (outcome : Except GenError String)

/-- The buffering and timer re-arm of src/index.ts lines 102-110 and 150:
record the content as the sole buffer entry, clearTimeout any timer whose
handle the Map still holds, and arm a fresh timer stored in the Map. -/
def arriveStep (c : Nat) (content : String) (s : SchedState) : SchedState :=
  let alive1 : Nat → Bool :=
    match s.messageTimeouts c with
    | some t => fun u => if u = t then false else s.timerAlive u
    | none => s.timerAlive
  { s with
    messageBufferPerChatId := fun x => if x = c then some content else s.messageBufferPerChatId x
    messageTimeouts := fun x => if x = c then some s.nextTimer else s.messageTimeouts x
    timerAlive := fun u => if u = s.nextTimer then true else alive1 u
    timerChat := fun u => if u = s.nextTimer then c else s.timerChat u
    nextTimer := s.nextTimer + 1 }

/-- One scheduler step; none when the event is not enabled (firing a dead
timer, completing a pipeline that is not in flight). -/
def step (s : SchedState) : Event → Option SchedState
  | Event.arrive c content => some (arriveStep c content s)
  | Event.fire t =>
    if s.timerAlive t then
      some { s with
        timerAlive := fun u => if u = t then false else s.timerAlive u
        pipes := fun q =>
          if q = s.nextPipe then some ⟨s.timerChat t, s.messageBufferPerChatId (s.timerChat t)⟩
          else s.pipes q
        nextPipe := s.nextPipe + 1
        genCalls := s.genCalls ++ [(s.nextPipe, s.timerChat t, s.messageBufferPerChatId (s.timerChat t))] }
    else none
  | Event.complete p outcome =>
    match s.pipes p with
    | some info =>
      some { s with
        pipes := fun q => if q = p then none else s.pipes q
        messageBufferPerChatId := fun x => if x = info.chat then none else s.messageBufferPerChatId x
        messageTimeouts := fun x => if x = info.chat then none else s.messageTimeouts x
        delivered :=
          match outcome with
          | Except.ok ans => s.delivered ++ [(info.chat, splitMessages ans)]
          | Except.error _ => s.delivered }
    | none => none

/-- Run a sequence of events from a state; none as soon as one is not enabled. -/
def runTrace : SchedState → List Event → Option SchedState
  | s, [] => some s
  | s, e :: es =>
    match step s e with
    | some s' => runTrace s' es
    | none => none

/-- The state reached from process start by a trace (initState on a trace
with a disabled event; used only on traces that run to completion). -/
def stateAfter (evts : List Event) : SchedState :=
  (runTrace initState evts).getD initState

/-- The timers for a conversation that are pending (scheduled and neither
fired nor cancelled): timer ids are allocated below nextTimer. -/
def pendingTimers (s : SchedState) (c : Nat) : List Nat :=
  (List.range s.nextTimer).filter (fun t => s.timerAlive t && decide (s.timerChat t = c))

/-- The invariant asserted by the specification: a conversation has a buffer
entry iff it has a pending (non-expired) timer, and at most one live timer
exists per conversation. -/
def claimedInvariant (s : SchedState) : Prop :=
  ∀ c, ((s.messageBufferPerChatId c).isSome = true ↔ pendingTimers s c ≠ []) ∧
    (pendingTimers s c).length ≤ 1

/-- The map-level invariant the code does maintain: the buffer Map and the
timeout-handle Map hold entries for exactly the same conversations. -/
def buffersMatchTimeouts (s : SchedState) : Prop :=
  ∀ c, (s.messageBufferPerChatId c).isSome = (s.messageTimeouts c).isSome

/-- The state after a burst of arrivals for conversation c. -/
def burstFold (c : Nat) (msgs : List String) (s : SchedState) : SchedState :=
  msgs.foldl (fun st m => arriveStep c m st) s

/-- The state of a conversation's entries after a nonempty burst for it from a
fresh start: the buffer holds the last content, the Map holds the newest
timer, that timer is the only live one and belongs to the conversation, and
no pipeline has started. -/
def BurstInv (c : Nat) (m : String) (s : SchedState) : Prop :=
  s.messageBufferPerChatId c = some m ∧
  s.messageTimeouts c = some (s.nextTimer - 1) ∧
  1 ≤ s.nextTimer ∧
  (∀ u, s.timerAlive u = true ↔ u = s.nextTimer - 1) ∧
  s.timerChat (s.nextTimer - 1) = c ∧
  s.genCalls = [] ∧
  s.nextPipe = 0

/-- The failure cases of the transcription contract: no media data, a media
download error, a file-write error, or a speech-to-text service error. -/
def failureScenario (sc : TranscribeScenario) : Prop :=
  sc.download = DownloadResult.null ∨ sc.download = DownloadResult.throws ∨
    sc.write = WriteResult.throws ∨ sc.service = ServiceResult.throws

/- ### Helper lemmas -/

theorem dropWs_eq_nil (l : List Char) :
    dropWs l = [] ↔ ∀ c ∈ l, c.isWhitespace = true := by
  induction l with
  | nil => simp [dropWs]
  | cons c cs ih =>
    simp only [dropWs, List.mem_cons]
    by_cases h : c.isWhitespace
    · rw [if_pos h, ih]
      constructor
      · intro hall x hx
        rcases hx with rfl | hx
        · exact h
        · exact hall x hx
      · intro hall x hx
        exact hall x (Or.inr hx)
    · rw [if_neg h]
      constructor
      · intro hx
        exact absurd hx (List.cons_ne_nil c cs)
      · intro hall
        exact absurd (hall c (Or.inl rfl)) h

theorem dropWs_decomp (l : List Char) :
    ∃ p, l = p ++ dropWs l ∧ ∀ c ∈ p, c.isWhitespace = true := by
  induction l with
  | nil => exact ⟨[], rfl, by simp⟩
  | cons c cs ih =>
    by_cases h : c.isWhitespace
    · obtain ⟨p, hp, hall⟩ := ih
      refine ⟨c :: p, ?_, ?_⟩
      · simp only [dropWs, if_pos h, List.cons_append]
        rw [← hp]
      · intro x hx
        rcases List.mem_cons.mp hx with rfl | hx
        · exact h
        · exact hall x hx
    · refine ⟨[], ?_, by simp⟩
      simp [dropWs, if_neg h]

theorem dropWs_head (l : List Char) :
    dropWs l = [] ∨ ∃ c cs, dropWs l = c :: cs ∧ c.isWhitespace = false := by
  induction l with
  | nil => exact Or.inl rfl
  | cons c cs ih =>
    by_cases h : c.isWhitespace
    · simpa [dropWs, if_pos h] using ih
    · exact Or.inr ⟨c, cs, by simp [dropWs, if_neg h], by simp [h]⟩

theorem trimList_eq_nil (l : List Char) :
    trimList l = [] ↔ ∀ c ∈ l, c.isWhitespace = true := by
  constructor
  · intro h c hc
    have hX : ∀ x ∈ (dropWs l.reverse).reverse, x.isWhitespace = true :=
      (dropWs_eq_nil _).mp h
    obtain ⟨p, hp, hall⟩ := dropWs_decomp l.reverse
    have hc' : c ∈ l.reverse := List.mem_reverse.mpr hc
    rw [hp] at hc'
    rcases List.mem_append.mp hc' with h1 | h1
    · exact hall c h1
    · exact hX c (List.mem_reverse.mpr h1)
  · intro hall
    apply (dropWs_eq_nil _).mpr
    intro c hc
    have h1 : c ∈ dropWs l.reverse := List.mem_reverse.mp hc
    obtain ⟨p, hp, _⟩ := dropWs_decomp l.reverse
    have h2 : c ∈ l.reverse := by
      rw [hp]
      exact List.mem_append_right p h1
    exact hall c (List.mem_reverse.mp h2)

theorem splitCore_false_mem (l : List Char) :
    ∀ acc, ∃ seg tl, splitCore false l acc = seg :: tl ∧ ∀ x ∈ acc, x ∈ seg := by
  induction l with
  | nil =>
    intro acc
    exact ⟨acc.reverse, [], rfl, fun x hx => List.mem_reverse.mpr hx⟩
  | cons c cs ih =>
    intro acc
    by_cases h : c = '\n'
    · refine ⟨acc.reverse, splitCore true cs [], ?_, fun x hx => List.mem_reverse.mpr hx⟩
      simp [splitCore, h]
    · obtain ⟨seg, tl, heq, hmem⟩ := ih (c :: acc)
      refine ⟨seg, tl, ?_, ?_⟩
      · simp only [splitCore, if_neg h]
        exact heq
      · intro x hx
        exact hmem x (List.mem_cons_of_mem c hx)

theorem runTrace_append (l1 l2 : List Event) :
    ∀ s, runTrace s (l1 ++ l2) = (runTrace s l1).bind (fun s' => runTrace s' l2) := by
  induction l1 with
  | nil => intro s; rfl
  | cons e es ih =>
    intro s
    simp only [List.cons_append, runTrace]
    cases h : step s e with
    | none => rfl
    | some s' => exact ih s'

theorem runTrace_arrivals (c : Nat) :
    ∀ (msgs : List String) (s : SchedState),
      runTrace s (msgs.map (Event.arrive c)) = some (burstFold c msgs s) := by
  intro msgs
  induction msgs with
  | nil => intro s; rfl
  | cons m ms ih =>
    intro s
    simp only [List.map_cons, runTrace, step, burstFold, List.foldl_cons]
    exact ih (arriveStep c m s)

theorem burstInv_arrive (c : Nat) (m m' : String) (s : SchedState) (h : BurstInv c m s) :
    BurstInv c m' (arriveStep c m' s) := by
  obtain ⟨hb, ht, hn, ha, hc, hg, hp⟩ := h
  refine ⟨?_, ?_, ?_, ?_, ?_, ?_, ?_⟩
  · simp [arriveStep, ht]
  · simp [arriveStep, ht]
  · simp [arriveStep]
  · intro u
    simp only [arriveStep, ht]
    by_cases h1 : u = s.nextTimer
    · simp [h1]
    · by_cases h2 : u = s.nextTimer - 1
      · simp only [if_neg h1, if_pos h2, Nat.add_sub_cancel]
        constructor
        · intro hx
          exact absurd hx (by simp)
        · intro hx
          exact absurd hx h1
      · simp only [if_neg h1, if_neg h2, ha u, Nat.add_sub_cancel]
        constructor
        · intro hx
          exact absurd hx h2
        · intro hx
          exact absurd hx h1
  · simp [arriveStep, ht]
  · simp [arriveStep, hg]
  · simp [arriveStep, hp]

theorem burstInv_init (c : Nat) (m : String) : BurstInv c m (arriveStep c m initState) := by
  refine ⟨?_, ?_, ?_, ?_, ?_, ?_, ?_⟩
  · simp [arriveStep, initState]
  · simp [arriveStep, initState]
  · simp [arriveStep, initState]
  · intro u
    by_cases h : u = 0 <;> simp [arriveStep, initState, h]
  · simp [arriveStep, initState]
  · simp [arriveStep, initState]
  · simp [arriveStep, initState]

theorem burstFold_inv (c : Nat) :
    ∀ (msgs : List String) (s : SchedState) (m : String),
      BurstInv c m s → BurstInv c (msgs.getLastD m) (burstFold c msgs s) := by
  intro msgs
  induction msgs with
  | nil => intro s m h; exact h
  | cons x xs ih =>
    intro s m h
    have h2 := ih (arriveStep c x s) x (burstInv_arrive c m x s h)
    rw [List.getLastD_cons]
    exact h2

theorem burstFold_nextTimer (c : Nat) :
    ∀ (msgs : List String) (s : SchedState),
      (burstFold c msgs s).nextTimer = s.nextTimer + msgs.length := by
  intro msgs
  induction msgs with
  | nil => intro s; simp [burstFold]
  | cons x xs ih =>
    intro s
    have h := ih (arriveStep c x s)
    simp only [burstFold, List.foldl_cons] at h ⊢
    rw [h]
    simp only [arriveStep, List.length_cons]
    omega

theorem step_preserves_match (s s' : SchedState) (e : Event)
    (h : buffersMatchTimeouts s) (hs : step s e = some s') : buffersMatchTimeouts s' := by
  cases e with
  | arrive c content =>
    simp only [step, Option.some_inj] at hs
    subst hs
    intro x
    by_cases hx : x = c <;> simp [arriveStep, hx, h x]
  | fire t =>
    simp only [step] at hs
    by_cases halive : s.timerAlive t = true
    · rw [if_pos halive, Option.some_inj] at hs
      subst hs
      intro x
      exact h x
    · rw [if_neg halive] at hs
      cases hs
  | complete p outcome =>
    cases hp : s.pipes p with
    | none =>
      simp only [step, hp] at hs
      cases hs
    | some info =>
      simp only [step, hp, Option.some_inj] at hs
      subst hs
      intro x
      by_cases hx : x = info.chat <;> simp [hx, h x]

theorem runTrace_preserves_match :
    ∀ (evts : List Event) (s s' : SchedState),
      runTrace s evts = some s' → buffersMatchTimeouts s → buffersMatchTimeouts s' := by
  intro evts
  induction evts with
  | nil =>
    intro s s' h hm
    simp only [runTrace, Option.some_inj] at h
    subst h
    exact hm
  | cons e es ih =>
    intro s s' h hm
    simp only [runTrace] at h
    cases hstep : step s e with
    | none => rw [hstep] at h; cases h
    | some s1 =>
      rw [hstep] at h
      exact ih s1 s' h (step_preserves_match s s1 e hm hstep)

theorem retryGo_succeeds (gen : Nat → Except GenError String) :
    ∀ (k a rem : Nat) (v : String), k < rem →
      (∀ i, i < k → ∃ e, gen (a + i) = Except.error e) →
      gen (a + k) = Except.ok v →
      retryGo gen a rem = (k + 1, List.range' a k, Except.ok (coerceEmpty v)) := by
  intro k
  induction k with
  | zero =>
    intro a rem v hk _ hsucc
    obtain ⟨r, rfl⟩ : ∃ r, rem = r + 1 := ⟨rem - 1, by omega⟩
    rw [Nat.add_zero] at hsucc
    simp [retryGo, hsucc]
  | succ k ih =>
    intro a rem v hk hfail hsucc
    obtain ⟨r, rfl⟩ : ∃ r, rem = r + 1 := ⟨rem - 1, by omega⟩
    obtain ⟨e, he⟩ := hfail 0 (Nat.succ_pos k)
    rw [Nat.add_zero] at he
    have hr : ¬ (r = 0) := by omega
    have ihh := ih (a + 1) r v (by omega)
      (fun i hi => by
        obtain ⟨e', he'⟩ := hfail (i + 1) (by omega)
        exact ⟨e', by rw [show a + 1 + i = a + (i + 1) from by omega]; exact he'⟩)
      (by rw [show a + 1 + k = a + (k + 1) from by omega]; exact hsucc)
    simp only [retryGo, he, if_neg hr, ihh]
    simp [List.range'_succ]

theorem retryGo_allfail (gen : Nat → Except GenError String) (f : Nat → GenError)
    (hf : ∀ i, gen i = Except.error (f i)) :
    ∀ (rem a : Nat), 1 ≤ rem →
      retryGo gen a rem = (rem, List.range' a (rem - 1), Except.error (f (a + (rem - 1)))) := by
  intro rem
  induction rem with
  | zero => intro a h; omega
  | succ r ih =>
    intro a _
    by_cases hr : r = 0
    · subst hr
      simp [retryGo, hf a]
    · have ihh := ih (a + 1) (by omega)
      simp only [retryGo, hf a, if_neg hr, ihh]
      have h1 : a + 1 + (r - 1) = a + r := by omega
      have h2 : List.range' a r = a :: List.range' (a + 1) (r - 1) := by
        obtain ⟨r', rfl⟩ : ∃ r', r = r' + 1 := ⟨r - 1, by omega⟩
        simp [List.range'_succ]
      simp [h1, h2]

/- ### Claim theorems -/

/-- C1: for every burst of N >= 1 supported messages to the same conversation
with all arrivals inside the debounce window (no timer expiry interleaves),
running the burst and then the one remaining live timer yields exactly one
settle pipeline for that conversation, whose generation call receives the
content of the last message of the burst (each arrival replaced the buffered
content), and afterwards no timer is live, so no further pipeline can start
without a new arrival. -/
theorem C1_burst_single_pipeline (c : Nat) (first : String) (rest : List String) :
    ∃ s, runTrace initState
        ((first :: rest).map (Event.arrive c) ++ [Event.fire rest.length]) = some s ∧
      s.genCalls = [(0, c, some (rest.getLastD first))] ∧
      (∀ u, s.timerAlive u = false) ∧
      s.nextPipe = 1 := by
  have hrun : runTrace initState ((first :: rest).map (Event.arrive c)) =
      some (burstFold c (first :: rest) initState) :=
    runTrace_arrivals c (first :: rest) initState
  have hinv : BurstInv c (rest.getLastD first)
      (burstFold c (first :: rest) initState) :=
    burstFold_inv c rest (arriveStep c first initState) first (burstInv_init c first)
  have hnt : (burstFold c (first :: rest) initState).nextTimer = rest.length + 1 := by
    have h2 := burstFold_nextTimer c (first :: rest) initState
    simpa [initState] using h2
  obtain ⟨hb, ht, hn, ha, hcc, hg, hp⟩ := hinv
  set sB := burstFold c (first :: rest) initState with hsB
  have hlen : sB.nextTimer - 1 = rest.length := by omega
  have halive : sB.timerAlive rest.length = true := by
    rw [ha, hlen]
  have hchat : sB.timerChat rest.length = c := by
    rw [← hlen]
    exact hcc
  have hstep : step sB (Event.fire rest.length) = some
      { sB with
        timerAlive := fun u => if u = rest.length then false else sB.timerAlive u
        pipes := fun q =>
          if q = sB.nextPipe then some ⟨sB.timerChat rest.length,
            sB.messageBufferPerChatId (sB.timerChat rest.length)⟩
          else sB.pipes q
        nextPipe := sB.nextPipe + 1
        genCalls := sB.genCalls ++ [(sB.nextPipe, sB.timerChat rest.length,
          sB.messageBufferPerChatId (sB.timerChat rest.length))] } := by
    simp only [step]
    rw [if_pos halive]
  refine ⟨{ sB with
      timerAlive := fun u => if u = rest.length then false else sB.timerAlive u
      pipes := fun q =>
        if q = sB.nextPipe then some ⟨sB.timerChat rest.length,
          sB.messageBufferPerChatId (sB.timerChat rest.length)⟩
        else sB.pipes q
      nextPipe := sB.nextPipe + 1
      genCalls := sB.genCalls ++ [(sB.nextPipe, sB.timerChat rest.length,
        sB.messageBufferPerChatId (sB.timerChat rest.length))] }, ?_, ?_, ?_, ?_⟩
  · rw [runTrace_append, hrun]
    show runTrace sB [Event.fire rest.length] = _
    simp only [runTrace, hstep]
  · simp only [hchat, hb, hg, hp, List.nil_append]
  · intro u
    by_cases hu : u = rest.length
    · simp [hu]
    · simp only [if_neg hu]
      cases hA : sB.timerAlive u with
      | false => rfl
      | true => exact absurd (hlen ▸ (ha u).mp hA) hu
  · simp only [hp]

/-- C2 counterexample: at the concrete overlap trace where message B arrives
for chat 0 after chat 0's timer fired (pipeline 0 in flight with content A)
and the in-flight pipeline completes before B's timer expires, the pipeline
started by B's timer reads an absent buffer (none), not B's content, because
the in-flight pipeline's finally block deleted B's buffer entry; so the claim
that the fresh cycle's pipeline operates on the new message's content is
false. -/
theorem C2_cex :
    ((runTrace initState [Event.arrive 0 "A", Event.fire 0, Event.arrive 0 "B",
        Event.complete 0 (Except.ok "resposta"), Event.fire 1]).map
      (fun s => s.genCalls) = some [(0, 0, some "A"), (1, 0, none)]) ∧
    ¬ ((runTrace initState [Event.arrive 0 "A", Event.fire 0, Event.arrive 0 "B",
        Event.complete 0 (Except.ok "resposta"), Event.fire 1]).map
      (fun s => s.genCalls) = some [(0, 0, some "A"), (1, 0, some "B")]) := by
  constructor
  · rfl
  · decide

/-- C2 amended: a message arriving while a pipeline is in flight never
disturbs the in-flight pipeline's snapshot (its generation call keeps the old
content), and the fresh cycle's own pipeline operates on the new message's
content when its timer fires before the in-flight pipeline completes; but
when the in-flight pipeline completes first, its cleanup deletes the fresh
cycle's buffer entry and the fresh pipeline reads an absent buffer instead of
the new message's content. -/
theorem C2_amended (A B ansA : String) :
    ((runTrace initState [Event.arrive 0 A, Event.fire 0, Event.arrive 0 B,
        Event.fire 1]).map (fun s => s.genCalls) =
      some [(0, 0, some A), (1, 0, some B)]) ∧
    ((runTrace initState [Event.arrive 0 A, Event.fire 0, Event.arrive 0 B,
        Event.complete 0 (Except.ok ansA), Event.fire 1]).map (fun s => s.genCalls) =
      some [(0, 0, some A), (1, 0, none)]) :=
  ⟨rfl, rfl⟩

/-- C3: with the fixed bound MAX_RETRIES = 3, a generator failing on its
first k calls and succeeding on call k+1 (k+1 <= 3) makes the loop perform
exactly k+1 calls and yield that success value (coerced only when it trims
to empty), with the k earlier failures logged with their attempt numbers;
a generator failing on every call makes the loop perform exactly 3 calls,
log attempts 1 and 2, and propagate only the final failure. -/
theorem C3_retry_bound :
    (∀ (gen : Nat → Except GenError String) (k : Nat) (v : String),
      k + 1 ≤ MAX_RETRIES →
      (∀ i, 1 ≤ i → i ≤ k → ∃ e, gen i = Except.error e) →
      gen (k + 1) = Except.ok v →
      (invokeWithRetry gen).1 = k + 1 ∧
      (invokeWithRetry gen).2.2 = Except.ok (coerceEmpty v) ∧
      ((trimList v.data).isEmpty = false → (invokeWithRetry gen).2.2 = Except.ok v) ∧
      (invokeWithRetry gen).2.1 = List.range' 1 k) ∧
    (∀ (gen : Nat → Except GenError String) (f : Nat → GenError),
      (∀ i, gen i = Except.error (f i)) →
      (invokeWithRetry gen).1 = MAX_RETRIES ∧
      (invokeWithRetry gen).2.2 = Except.error (f MAX_RETRIES) ∧
      (invokeWithRetry gen).2.1 = List.range' 1 (MAX_RETRIES - 1)) := by
  constructor
  · intro gen k v hk hfail hsucc
    have h := retryGo_succeeds gen k 1 MAX_RETRIES v
      (by simp only [MAX_RETRIES] at hk ⊢; omega)
      (fun i hi => by
        obtain ⟨e, he⟩ := hfail (i + 1) (by omega) (by omega)
        exact ⟨e, by rw [Nat.add_comm 1 i]; exact he⟩)
      (by rw [Nat.add_comm 1 k]; exact hsucc)
    rw [invokeWithRetry, h]
    refine ⟨rfl, rfl, ?_, rfl⟩
    intro hne
    simp [coerceEmpty, hne]
  · intro gen f hf
    have h := retryGo_allfail gen f hf MAX_RETRIES 1 (by simp [MAX_RETRIES])
    rw [invokeWithRetry, h]
    refine ⟨rfl, ?_, rfl⟩
    simp [MAX_RETRIES]

/-- C3 witness: a generator failing on attempts 1 and 2 and succeeding on
attempt 3 makes exactly 3 calls and yields the success value; an always
failing generator makes exactly 3 calls and surfaces the attempt-3 error. -/
theorem C3_retry_bound_w :
    (invokeWithRetry (fun i => if i = 3 then Except.ok "olá" else Except.error (GenError.mk i))).1 = 3 ∧
    (invokeWithRetry (fun i => if i = 3 then Except.ok "olá" else Except.error (GenError.mk i))).2.2 =
      Except.ok "olá" ∧
    (invokeWithRetry (fun i => Except.error (GenError.mk i))).1 = MAX_RETRIES ∧
    (invokeWithRetry (fun i => Except.error (GenError.mk i))).2.2 = Except.error (GenError.mk 3) := by
  have h1 := C3_retry_bound.1 (fun i => if i = 3 then Except.ok "olá" else Except.error (GenError.mk i))
    2 "olá" (by decide)
    (fun i ha hb => ⟨GenError.mk i, by
      show (if i = 3 then Except.ok "olá" else Except.error (GenError.mk i)) = Except.error (GenError.mk i)
      rw [if_neg (by omega)]⟩)
    rfl
  have h2 := C3_retry_bound.2 (fun i => Except.error (GenError.mk i)) (fun i => GenError.mk i) (fun i => rfl)
  exact ⟨h1.1, h1.2.2.1 (by decide), h2.1, h2.2.1⟩

/-- C4: when a settle pipeline for a conversation completes, with any outcome
(successful generation and delivery, or a propagated error), the finally
block leaves both the buffer entry and the timer-handle entry for that
conversation absent. -/
theorem C4_cleanup (s : SchedState) (p : Nat) (outcome : Except GenError String)
    (s' : SchedState) (info : PipeInfo) (hp : s.pipes p = some info)
    (hs : step s (Event.complete p outcome) = some s') :
    s'.messageBufferPerChatId info.chat = none ∧ s'.messageTimeouts info.chat = none := by
  simp only [step, hp, Option.some_inj] at hs
  subst hs
  constructor <;> simp

/-- C4 witness: the concrete run arrive-fire-complete for chat 0 ends with
both entries for chat 0 absent. -/
theorem C4_cleanup_w :
    (stateAfter [Event.arrive 0 "oi", Event.fire 0,
      Event.complete 0 (Except.ok "resp")]).messageBufferPerChatId 0 = none ∧
    (stateAfter [Event.arrive 0 "oi", Event.fire 0,
      Event.complete 0 (Except.ok "resp")]).messageTimeouts 0 = none :=
  C4_cleanup (stateAfter [Event.arrive 0 "oi", Event.fire 0]) 0 (Except.ok "resp")
    (stateAfter [Event.arrive 0 "oi", Event.fire 0, Event.complete 0 (Except.ok "resp")])
    ⟨0, some "oi"⟩ rfl rfl

/-- C5 counterexample: in the reachable state where chat 0's timer has fired
and its pipeline is still in flight, the buffer entry for chat 0 exists while
no pending (non-expired) timer for chat 0 exists, so the claimed
entry-iff-pending-timer invariant fails at an observable point. -/
theorem C5_cex : ¬ claimedInvariant (stateAfter [Event.arrive 0 "A", Event.fire 0]) :=
  fun h => ((h 0).1.mp (by decide)) (by decide)

/-- C5 amended: at every reachable scheduler state, a conversation has a
buffer entry iff it has a timer-handle entry in the timeout Map; the handle
may reference an already expired timer, and live timers outside the Map can
exist, so the Map-level biconditional is what the code maintains. -/
theorem C5_map_invariant (evts : List Event) (s : SchedState)
    (h : runTrace initState evts = some s) : buffersMatchTimeouts s :=
  runTrace_preserves_match evts initState s h (fun _ => rfl)

/-- C5 witness: the Map-level invariant at the state reached by a concrete
arrive-fire trace. -/
theorem C5_map_invariant_w :
    buffersMatchTimeouts (stateAfter [Event.arrive 0 "oi", Event.fire 0]) :=
  C5_map_invariant [Event.arrive 0 "oi", Event.fire 0]
    (stateAfter [Event.arrive 0 "oi", Event.fire 0]) rfl

/-- C6: splitMessages trims its input, splits at each newline followed by
optional whitespace, discards whitespace-only segments preserving order, so
the three contract examples hold, and any input containing some
non-whitespace character splits into at least one delivery chunk. -/
theorem C6_splitMessages :
    splitMessages "a\n\nb\n  \nc" = ["a", "b", "c"] ∧
    splitMessages "  single  " = ["single"] ∧
    splitMessages "" = [] ∧
    ∀ s : String, (∃ c ∈ s.data, c.isWhitespace = false) →
      1 ≤ (splitMessages s).length := by
  refine ⟨by decide, by decide, by decide, ?_⟩
  intro s hs
  obtain ⟨c, hc, hcw⟩ := hs
  have htrim : trimList s.data ≠ [] := by
    intro h
    have hw := (trimList_eq_nil s.data).mp h c hc
    rw [hcw] at hw
    simp at hw
  rcases dropWs_head ((dropWs s.data.reverse).reverse) with h | ⟨c0, cs0, heq, hc0⟩
  · exact absurd h htrim
  · have heq' : trimList s.data = c0 :: cs0 := heq
    have hc0n : ¬ (c0 = '\n') := by
      intro h
      rw [h] at hc0
      exact absurd hc0 (by decide)
    obtain ⟨seg, tl, hsc, hmem⟩ := splitCore_false_mem cs0 [c0]
    have hsplit : splitCore false (trimList s.data) [] = seg :: tl := by
      rw [heq']
      simp only [splitCore, if_neg hc0n]
      exact hsc
    have hc0seg : c0 ∈ seg := hmem c0 (List.mem_singleton.mpr rfl)
    have htseg : trimList seg ≠ [] := by
      intro h
      have hw := (trimList_eq_nil seg).mp h c0 hc0seg
      rw [hc0] at hw
      simp at hw
    have hkeep : (!(trimList seg).isEmpty) = true := by
      cases hlE : (trimList seg).isEmpty with
      | false => rfl
      | true => exact absurd (List.isEmpty_iff.mp hlE) htseg
    have hmem2 : seg ∈ (splitCore false (trimList s.data) []).filter
        (fun seg => !(trimList seg).isEmpty) := by
      rw [hsplit]
      exact List.mem_filter.mpr ⟨List.mem_cons_self seg tl, hkeep⟩
    have hpos := List.length_pos_of_mem hmem2
    simpa [splitMessages] using hpos

/-- C6 witness: a concrete non-whitespace input yields at least one chunk. -/
theorem C6_splitMessages_w : 1 ≤ (splitMessages "olá mundo").length :=
  C6_splitMessages.2.2.2 "olá mundo" ⟨'o', by decide, by decide⟩

/-- C7: a generation attempt that returns without failing but whose result
trims to the empty string is not treated as a failure and consumes no further
attempt (the loop breaks at that call), and the answer is replaced by the
fixed fallback message, which then reaches splitting intact as the single
delivery chunk. -/
theorem C7_empty_coerced (gen : Nat → Except GenError String) (k : Nat) (v : String)
    (hk : k + 1 ≤ MAX_RETRIES)
    (hfail : ∀ i, 1 ≤ i → i ≤ k → ∃ e, gen i = Except.error e)
    (hsucc : gen (k + 1) = Except.ok v)
    (hempty : (trimList v.data).isEmpty = true) :
    (invokeWithRetry gen).1 = k + 1 ∧
    (invokeWithRetry gen).2.2 = Except.ok FALLBACK_ANSWER ∧
    splitMessages FALLBACK_ANSWER = [FALLBACK_ANSWER] := by
  have h := retryGo_succeeds gen k 1 MAX_RETRIES v
    (by simp only [MAX_RETRIES] at hk ⊢; omega)
    (fun i hi => by
      obtain ⟨e, he⟩ := hfail (i + 1) (by omega) (by omega)
      exact ⟨e, by rw [Nat.add_comm 1 i]; exact he⟩)
    (by rw [Nat.add_comm 1 k]; exact hsucc)
  rw [invokeWithRetry, h]
  refine ⟨rfl, ?_, by decide⟩
  simp [coerceEmpty, hempty]

/-- C7 witness: a generator succeeding immediately with a whitespace-only
answer makes one call and yields the fallback message. -/
theorem C7_empty_coerced_w :
    (invokeWithRetry (fun _ => Except.ok "   ")).1 = 0 + 1 ∧
    (invokeWithRetry (fun _ => Except.ok "   ")).2.2 = Except.ok FALLBACK_ANSWER ∧
    splitMessages FALLBACK_ANSWER = [FALLBACK_ANSWER] :=
  C7_empty_coerced (fun _ => Except.ok "   ") 0 "   " (by decide)
    (fun i h1 h2 => absurd (Nat.le_trans h1 h2) (by decide))
    rfl (by decide)

/-- C8 counterexample: when the download and the temp-file write succeed but
the speech-to-text submission throws, control jumps to the catch and the
unlink is skipped, so the transient audio file is still present after
transcribeAudio returns; the claim that the file is absent regardless of
outcome is false. -/
theorem C8_cex :
    (transcribeAudio ⟨DownloadResult.ok 1, WriteResult.ok, ServiceResult.throws⟩).2 = true :=
  rfl

/-- C8 amended: the transient audio file is absent after transcribeAudio
returns except in exactly one case: it remains present iff the media download
and the file write succeeded and the speech-to-text submission threw, because
the unlink runs only on the straight-line success path and the catch performs
no cleanup. -/
theorem C8_file_release (sc : TranscribeScenario) :
    (transcribeAudio sc).2 = true ↔
      (∃ d, sc.download = DownloadResult.ok d) ∧ sc.write = WriteResult.ok ∧
        sc.service = ServiceResult.throws := by
  obtain ⟨d, w, sv⟩ := sc
  cases d <;> cases w <;> cases sv <;>
    simp [transcribeAudio, transcribeTry]

/-- C9: transcribeAudio never propagates an exception past its boundary: any
error thrown inside its try body is caught and turned into the fixed apology,
and every failure scenario (no media data, download error, write error,
service error) returns one of the two fixed apology strings instead of
throwing. -/
theorem C9_never_throws :
    (∀ (sc : TranscribeScenario) (b : Bool), transcribeTry sc = Except.error b →
      transcribeAudio sc = (apologyTranscribe, b)) ∧
    (∀ sc : TranscribeScenario, failureScenario sc →
      (transcribeAudio sc).1 = apologyNoData ∨
        (transcribeAudio sc).1 = apologyTranscribe) := by
  constructor
  · intro sc b h
    simp [transcribeAudio, h]
  · intro sc h
    obtain ⟨d, w, sv⟩ := sc
    cases d <;> cases w <;> cases sv <;>
      simp_all [transcribeAudio, transcribeTry, failureScenario]

/-- C9 witness: a write-error scenario is caught and yields the apology, and
a null-download scenario yields the no-data apology. -/
theorem C9_never_throws_w :
    transcribeAudio ⟨DownloadResult.ok 1, WriteResult.throws, ServiceResult.ok "t"⟩ =
      (apologyTranscribe, false) ∧
    ((transcribeAudio ⟨DownloadResult.null, WriteResult.ok, ServiceResult.ok "t"⟩).1 =
        apologyNoData ∨
      (transcribeAudio ⟨DownloadResult.null, WriteResult.ok, ServiceResult.ok "t"⟩).1 =
        apologyTranscribe) :=
  ⟨C9_never_throws.1 ⟨DownloadResult.ok 1, WriteResult.throws, ServiceResult.ok "t"⟩
      false rfl,
    C9_never_throws.2 ⟨DownloadResult.null, WriteResult.ok, ServiceResult.ok "t"⟩
      (Or.inl rfl)⟩

/-- C10: when transcription of a voice message fails, the resulting apology
string becomes the conversation's buffered content; when the timer fires, the
generation call receives exactly that apology as its input, and the only
delivery made to the sender is the split of the generator's answer — the
apology itself is never delivered directly. -/
theorem C10_apology_to_generator (ans : String) :
    contentOf MsgType.ptt ""
      ⟨DownloadResult.ok 1, WriteResult.ok, ServiceResult.throws⟩ =
      some apologyTranscribe ∧
    (runTrace initState [Event.arrive 0 apologyTranscribe, Event.fire 0,
        Event.complete 0 (Except.ok ans)]).map (fun s => (s.genCalls, s.delivered)) =
      some ([(0, 0, some apologyTranscribe)], [(0, splitMessages ans)]) :=
  ⟨rfl, rfl⟩

end Bridge
